import Mathlib

/-!
Shallow embedding of `src/algorithms/synthesis/sinemodelanal.cpp` (essentia,
`SineModelAnal`).  `Real` (C++ `float`) is modelled by `ℚ`; every concrete
input used below is exactly representable in `float`, and every branch
decision taken at those inputs is the same in `float` and in `ℚ`.
Vector indexing `v[i]` is modelled by `List.getD i 0` (all in-scope accesses
are in bounds unless a claim is precisely about an out-of-bounds access, in
which case the accessed index itself is what is reasoned about).
-/

/-- C cast from a floating value to `int` truncates toward zero
(`idx = int (0.5 + pos)` at line 363 of the source). -/
def cIntCast (q : ℚ) : ℤ := if 0 ≤ q then ⌊q⌋ else -⌊-q⌋

/-- The value `Real(M_PI)` used at lines 368 and 372: the `float` nearest to π,
namely 13176795 · 2⁻²². -/
def mPI : ℚ := 13176795 / 4194304

/-- One step of the insertion modelling `std::sort` with
`comparator l r = l.second < r.second` (lines 45-47): an element is placed
before the first element whose key is strictly greater, so the result is
ascending by key and stable on ties. -/
def insertPair (p : ℕ × ℚ) : List (ℕ × ℚ) → List (ℕ × ℚ)
  | [] => [p]
  | q :: qs => if p.2 < q.2 then p :: q :: qs else q :: insertPair p qs

/-- Sorting of `(index, value)` pairs by value, ascending (lines 53-60). -/
def sortPairs : List (ℕ × ℚ) → List (ℕ × ℚ)
  | [] => []
  | p :: ps => insertPair p (sortPairs ps)

/-- `sort_indexes` (lines 50-66): builds pairs `(i, v[i])`, sorts them with
`comparator` (ascending by value), and returns the index column. -/
def sort_indexes (v : List ℚ) : List ℕ := (sortPairs v.enum).map Prod.fst

/-- `copy_vector_from_indexes` / `copy_int_vector_from_indexes`
(lines 68-82): `out[i] = v[idx[i]]`. -/
def copy_vector_from_indexes {α : Type} (v : List α) (idx : List ℕ) (d : α) : List α :=
  idx.map (fun i => v.getD i d)

/-- `erase_vector_from_indexes` (lines 85-90): erases positions one after the
other, each erasure shifting the later elements (exactly like repeated
`v.erase(v.begin() + idx[i])`). -/
def erase_vector_from_indexes (v : List ℚ) (idx : List ℕ) : List ℚ :=
  idx.foldl (fun acc i => acc.eraseIdx i) v

/-- The inner closest-track search of `sinusoidalTracking` (lines 222-230):
`closestIdx = 0; freqDistance = 1e10;` then for each `k`,
`if (freqDistance < |pfreqt[i] - tfreq[incomingTracks[k]]|)` the pair is
replaced.  Note the comparison direction and the initial value are exactly
those of the source. -/
def closestTrackSearch (peakFreq : ℚ) (tfreq : List ℚ) (incomingTracks : List ℕ) : ℕ × ℚ :=
  (List.range incomingTracks.length).foldl
    (fun st k =>
      if st.2 < |peakFreq - tfreq.getD (incomingTracks.getD k 0) 0| then
        (k, |peakFreq - tfreq.getD (incomingTracks.getD k 0) 0|)
      else st)
    (0, 10 ^ 10)

/-- The matching pass of `sinusoidalTracking` (lines 212-237): iterate peaks
in `magOrder`; the `break` on an empty `incomingTracks` is modelled by a
skipping step (once the pool is empty no step changes the state).  On a
successful threshold test `newTracks[incomingTracks[closestIdx]] = i` and the
track is erased from the pool. -/
def matchingPass (peakFrequencies tfreq : List ℚ) (magOrder : List ℕ)
    (incomingTracks : List ℕ) (newTracks : List ℤ)
    (freqDevOffset freqDevSlope : ℚ) : List ℤ × List ℕ :=
  if incomingTracks.isEmpty then (newTracks, incomingTracks)
  else
    magOrder.foldl
      (fun st i =>
        if st.2.isEmpty then st
        else
          let c := closestTrackSearch (peakFrequencies.getD i 0) tfreq st.2
          if c.2 < freqDevOffset + freqDevSlope * peakFrequencies.getD i 0 then
            (st.1.set (st.2.getD c.1 0) (i : ℤ), st.2.eraseIdx c.1)
          else st)
      (newTracks, incomingTracks)

/-- Indexed batch update `l[p.1] = p.2` for each pair in order, modelling the
assignment loops of `sinusoidalTracking`. -/
def setAll (l : List ℚ) (ps : List (ℕ × ℚ)) : List ℚ :=
  ps.foldl (fun acc p => acc.set p.1 p.2) l

/-- The three aligned output arrays of the track continuator. -/
structure TrackFrame where
  freq : List ℚ
  mag : List ℚ
  phase : List ℚ

/-- The spawn pass of `sinusoidalTracking` (lines 297-336).  First branch
(`peaksleft.size() > 0 && emptyt.size() >= peaksleft.size()`, lines 302-311):
`tfreqn[emptyt[i]] = pfreqt[i]` (the source indexes `pfreqt` by `i`, not by
`peaksleft[i]`).  Second branch (lines 320-335): `tfreqn[i] =
pfreqt[peaksleft[i]]` for `i < emptyt.size()` (the source writes to slot `i`,
not to `emptyt[i]`), then the remaining `pfreqt[peaksleft[i]]` are appended. -/
def createNewTracks (tfreqn tmagn tphasen pfreqt pmagt pphaset : List ℚ)
    (emptyt : List ℕ) : TrackFrame :=
  let peaksleft := sort_indexes pmagt
  if 0 < peaksleft.length ∧ peaksleft.length ≤ emptyt.length then
    { freq := setAll tfreqn ((List.range peaksleft.length).map
        (fun i => (emptyt.getD i 0, pfreqt.getD i 0)))
      mag := setAll tmagn ((List.range peaksleft.length).map
        (fun i => (emptyt.getD i 0, pmagt.getD i 0)))
      phase := setAll tphasen ((List.range peaksleft.length).map
        (fun i => (emptyt.getD i 0, pphaset.getD i 0))) }
  else if 0 < peaksleft.length ∧ emptyt.length < peaksleft.length then
    { freq := setAll tfreqn ((List.range emptyt.length).map
        (fun i => (i, pfreqt.getD (peaksleft.getD i 0) 0)))
        ++ (peaksleft.drop emptyt.length).map (fun p => pfreqt.getD p 0)
      mag := setAll tmagn ((List.range emptyt.length).map
        (fun i => (i, pmagt.getD (peaksleft.getD i 0) 0)))
        ++ (peaksleft.drop emptyt.length).map (fun p => pmagt.getD p 0)
      phase := setAll tphasen ((List.range emptyt.length).map
        (fun i => (i, pphaset.getD (peaksleft.getD i 0) 0)))
        ++ (peaksleft.drop emptyt.length).map (fun p => pphaset.getD p 0) }
  else
    { freq := tfreqn, mag := tmagn, phase := tphasen }

/-- `SineModelAnal::sinusoidalTracking` (lines 150-347).  Points where the
source departs from the commented numpy reference are embedded exactly as the
C++ executes:
* lines 157-158 overwrite the `freqDevOffset` and `freqDevSlope` arguments
  with the constants `20` and `0.01` (the `let` bindings below shadow the
  function arguments, which are therefore unused);
* `pindexes` (lines 175-176) is computed by the source but never used, so it
  is omitted;
* the output vectors are `resize`d to `tfreq.size()` (lines 170-172); the
  claims concern calls whose output vectors start empty, so this yields
  all-zero lists;
* the `if (indext.size() > 0)` guard (line 247) is dropped because with
  `indext = []` the guarded loops do nothing (`setAll _ [] = id`,
  `erase_vector_from_indexes _ [] = id`);
* the `emptyt` loop (lines 282-286) iterates `i` below `emptyt.size()` while
  pushing into `emptyt` itself, and `emptyt` starts empty, so the loop body
  never runs and `emptyt` stays `[]`. -/
def sinusoidalTracking (peakMags peakFrequencies peakPhases tfreq : List ℚ)
    (freqDevOffset freqDevSlope : ℚ) : TrackFrame :=
  let freqDevOffset : ℚ := 20
  let freqDevSlope : ℚ := 1 / 100
  let tfreqn := List.replicate tfreq.length (0 : ℚ)
  let tmagn := List.replicate tfreq.length (0 : ℚ)
  let tphasen := List.replicate tfreq.length (0 : ℚ)
  let incomingTracks := (List.range tfreq.length).filter (fun i => decide (0 < tfreq.getD i 0))
  let newTracks : List ℤ := List.replicate tfreq.length (-1)
  let magOrder := sort_indexes peakMags
  let newTracks :=
    (matchingPass peakFrequencies tfreq magOrder incomingTracks newTracks
      freqDevOffset freqDevSlope).1
  let indext := (List.range newTracks.length).filter
    (fun i => decide (newTracks.getD i (-1) ≠ -1))
  let indexp : List ℕ := (copy_vector_from_indexes newTracks indext (-1)).map Int.toNat
  let tfreqn := setAll tfreqn (indext.zip (indexp.map (fun p => peakFrequencies.getD p 0)))
  let tmagn := setAll tmagn (indext.zip (indexp.map (fun p => peakMags.getD p 0)))
  let tphasen := setAll tphasen (indext.zip (indexp.map (fun p => peakPhases.getD p 0)))
  let pfreqt := erase_vector_from_indexes peakFrequencies indexp
  let pmagt := erase_vector_from_indexes peakMags indexp
  let pphaset := erase_vector_from_indexes peakPhases indexp
  let emptyt : List ℕ := []
  createNewTracks tfreqn tmagn tphasen pfreqt pmagt pphaset emptyt

/-- `SineModelAnal::phaseInterpolation` (lines 351-379) for one peak
frequency: `pos = fftSize * (f / (sampleRate/2))`, `idx = int(0.5 + pos)`,
`a = pos - idx`, then the three branches of lines 367-377 with the
discontinuity test `|Δphase| > Real(M_PI)` choosing between
`a * phase[neighbor] + (1-a) * phase[idx]` and `phase[idx]`. -/
def phaseInterpOne (sampleRate : ℚ) (fftphase : List ℚ) (f : ℚ) : ℚ :=
  let fftSize : ℤ := (fftphase.length : ℤ)
  let pos : ℚ := (fftphase.length : ℚ) * (f / (sampleRate / 2))
  let idx : ℤ := cIntCast (1 / 2 + pos)
  let a : ℚ := pos - idx
  let ph : ℤ → ℚ := fun j => fftphase.getD j.toNat 0
  if a < 0 ∧ 0 < idx then
    if |ph (idx - 1) - ph idx| > mPI then a * ph (idx - 1) + (1 - a) * ph idx else ph idx
  else if idx < fftSize - 1 then
    if |ph (idx + 1) - ph idx| > mPI then a * ph (idx + 1) + (1 - a) * ph idx else ph idx
  else ph idx

/-- `SineModelAnal::phaseInterpolation` over the whole peak-frequency list. -/
def phaseInterpolation (sampleRate : ℚ) (fftphase peakFrequencies : List ℚ) : List ℚ :=
  peakFrequencies.map (phaseInterpOne sampleRate fftphase)

/-- The indexes at which `phaseInterpOne` reads `fftphase`: `[idx-1, idx]` in
the `a < 0 && idx > 0` branch (line 368), `[idx+1, idx]` in the
`idx < fftSize-1` branch (line 372), `[idx]` in the final branch (line 375). -/
def phaseInterpReads (sampleRate : ℚ) (fftphase : List ℚ) (f : ℚ) : List ℤ :=
  let fftSize : ℤ := (fftphase.length : ℤ)
  let pos : ℚ := (fftphase.length : ℚ) * (f / (sampleRate / 2))
  let idx : ℤ := cIntCast (1 / 2 + pos)
  let a : ℚ := pos - idx
  if a < 0 ∧ 0 < idx then [idx - 1, idx]
  else if idx < fftSize - 1 then [idx + 1, idx]
  else [idx]

/-- ASCII lowercasing, modelling `parameter("orderBy").toLower()`
(line 100). -/
def lowercase (s : String) : String := ⟨s.data.map Char.toLower⟩

/-- Substring test (used to state whether an error message contains a given
fragment). -/
def containsSub (needle hay : List Char) : Bool :=
  hay.tails.any (fun t => needle.isPrefixOf t)

/-- The parameters of `SineModelAnal` (header, `declareParameters`). -/
structure SineModelAnalParams where
  sampleRate : ℚ
  maxPeaks : ℤ
  minFrequency : ℚ
  maxFrequency : ℚ
  magnitudeThreshold : ℚ
  orderBy : String

/-- The configuration committed to the `PeakDetection` collaborator
(lines 111-117). -/
structure PeakDetectionConfig where
  interpolate : Bool
  range : ℚ
  maxPeaks : ℤ
  minPosition : ℚ
  maxPosition : ℚ
  threshold : ℚ
  orderBy : String
deriving DecidableEq

/-- `SineModelAnal::configure` (lines 98-119): lowercase the `orderBy`
parameter, map `"magnitude"` to `"amplitude"` and `"frequency"` to
`"position"`, otherwise throw `EssentiaException("Unsupported ordering type:
'" + orderBy + "'")` before configuring the collaborator; on success commit
the `PeakDetection` configuration.  The thrown exception is modelled as
`Except.error` carrying the message, and an error therefore commits no
collaborator configuration. -/
def SineModelAnalConfigure (p : SineModelAnalParams) : Except String PeakDetectionConfig :=
  let orderBy := lowercase p.orderBy
  if orderBy = "magnitude" then
    .ok { interpolate := true, range := p.sampleRate / 2, maxPeaks := p.maxPeaks,
          minPosition := p.minFrequency, maxPosition := p.maxFrequency,
          threshold := p.magnitudeThreshold, orderBy := "amplitude" }
  else if orderBy = "frequency" then
    .ok { interpolate := true, range := p.sampleRate / 2, maxPeaks := p.maxPeaks,
          minPosition := p.minFrequency, maxPosition := p.maxFrequency,
          threshold := p.magnitudeThreshold, orderBy := "position" }
  else
    .error ("Unsupported ordering type: '" ++ orderBy ++ "'")

/-! Helper lemmas. -/

lemma setAll_cons (l : List ℚ) (p : ℕ × ℚ) (ps : List (ℕ × ℚ)) :
    setAll l (p :: ps) = setAll (l.set p.1 p.2) ps := rfl

lemma length_setAll (ps : List (ℕ × ℚ)) (l : List ℚ) : (setAll l ps).length = l.length := by
  induction ps generalizing l with
  | nil => rfl
  | cons p ps ih => rw [setAll_cons, ih, List.length_set]

lemma mem_setAll {x : ℚ} (ps : List (ℕ × ℚ)) (l : List ℚ) (h : x ∈ setAll l ps) :
    x ∈ l ∨ ∃ p ∈ ps, x = p.2 := by
  induction ps generalizing l with
  | nil => exact Or.inl h
  | cons p ps ih =>
    rw [setAll_cons] at h
    rcases ih _ h with h2 | ⟨q, hq, rfl⟩
    · rcases List.mem_or_eq_of_mem_set h2 with h3 | h3
      · exact Or.inl h3
      · exact Or.inr ⟨p, List.mem_cons_self p ps, h3⟩
    · exact Or.inr ⟨q, List.mem_cons_of_mem p hq, rfl⟩

lemma getD_zero_or_mem (l : List ℚ) (i : ℕ) : l.getD i 0 = 0 ∨ l.getD i 0 ∈ l := by
  rcases Nat.lt_or_ge i l.length with h | h
  · right
    rw [List.getD_eq_getElem l 0 h]
    exact List.getElem_mem h
  · left
    exact List.getD_eq_default l 0 h

lemma mem_erase_vector_from_indexes {x : ℚ} (idx : List ℕ) (v : List ℚ)
    (h : x ∈ erase_vector_from_indexes v idx) : x ∈ v := by
  induction idx generalizing v with
  | nil => exact h
  | cons i is ih =>
    have h2 : x ∈ v.eraseIdx i := ih _ h
    exact (List.eraseIdx_sublist v i).mem h2

lemma createNewTracks_length (tfreqn tmagn tphasen pfreqt pmagt pphaset : List ℚ)
    (emptyt : List ℕ) :
    tfreqn.length ≤ (createNewTracks tfreqn tmagn tphasen pfreqt pmagt pphaset emptyt).freq.length
    ∧ tmagn.length ≤ (createNewTracks tfreqn tmagn tphasen pfreqt pmagt pphaset emptyt).mag.length
    ∧ tphasen.length ≤
        (createNewTracks tfreqn tmagn tphasen pfreqt pmagt pphaset emptyt).phase.length := by
  rw [createNewTracks]
  split_ifs <;> simp [length_setAll]

lemma mem_createNewTracks_freq {x : ℚ} (tfreqn tmagn tphasen pfreqt pmagt pphaset : List ℚ)
    (emptyt : List ℕ)
    (h : x ∈ (createNewTracks tfreqn tmagn tphasen pfreqt pmagt pphaset emptyt).freq) :
    x ∈ tfreqn ∨ x = 0 ∨ x ∈ pfreqt := by
  rw [createNewTracks] at h
  split_ifs at h
  · rcases mem_setAll _ _ h with h2 | ⟨p, hp, rfl⟩
    · exact Or.inl h2
    · rcases List.mem_map.1 hp with ⟨i, _, rfl⟩
      exact Or.inr (getD_zero_or_mem pfreqt _)
  · rcases List.mem_append.1 h with h2 | h2
    · rcases mem_setAll _ _ h2 with h3 | ⟨p, hp, rfl⟩
      · exact Or.inl h3
      · rcases List.mem_map.1 hp with ⟨i, _, rfl⟩
        exact Or.inr (getD_zero_or_mem pfreqt _)
    · rcases List.mem_map.1 h2 with ⟨i, _, rfl⟩
      exact Or.inr (getD_zero_or_mem pfreqt _)
  · exact Or.inl h

lemma cIntCast_of_nonneg (q : ℚ) (z : ℤ) (h0 : 0 ≤ q) (h1 : (z:ℚ) ≤ q) (h2 : q < z + 1) :
    cIntCast q = z := by
  rw [cIntCast, if_pos h0, Int.floor_eq_iff]
  exact ⟨h1, h2⟩

lemma containsSub_of_parts (s n t : List Char) : containsSub n (s ++ (n ++ t)) = true := by
  rw [containsSub, List.any_eq_true]
  refine ⟨n ++ t, ?_, ?_⟩
  · rw [List.mem_tails]
    exact List.suffix_append s (n ++ t)
  · rw [List.isPrefixOf_iff_prefix]
    exact List.prefix_append n t

lemma string_append_data (a b : String) : (a ++ b).data = a.data ++ b.data := rfl

/-! Claim theorems. -/

/-- C1.  Evaluation of the track continuator at the spec's Scenario C
(incoming track 300 Hz; one current peak 305 Hz, magnitude 3;
freqDevOffset 20, freqDevSlope 0.01).  The claim says the peak matches the
track (distance 5 < 23.05) and output slot 0 holds 305.  The code instead
leaves slot 0 at the sentinel 0 and appends 305 as a brand-new slot: the
closest-track search at lines 223-230 updates its candidate only when the
distance EXCEEDS the running value, which starts at 1e10, so `freqDistance`
stays 1e10 and the threshold test at line 231 always fails. -/
theorem sinusoidalTracking_scenarioC :
    (sinusoidalTracking [3] [305] [0] [300] 20 (1 / 100)).freq = [0, 305] := by
  norm_num [sinusoidalTracking, matchingPass, closestTrackSearch, createNewTracks,
    sort_indexes, sortPairs, insertPair, List.enum, List.enumFrom, setAll,
    copy_vector_from_indexes, erase_vector_from_indexes, List.range_succ, List.replicate]

/-- C2.  Evaluation of the track continuator at the spec's Scenario B
(all-zero incoming track array of length 4; peaks (300 Hz, mag 5) and
(900 Hz, mag 2)).  The claim says slots 0 and 1 receive the two peaks and
slots 2-3 stay sentinel.  The code instead leaves all four slots at the
sentinel and appends both peaks at the end (in ascending-magnitude order):
the `emptyt` loop at lines 283-286 iterates over `emptyt` itself instead of
`tfreq`, so no empty slot is ever found. -/
theorem sinusoidalTracking_scenarioB :
    (sinusoidalTracking [5, 2] [300, 900] [0, 0] [0, 0, 0, 0] 20 (1 / 100)).freq
      = [0, 0, 0, 0, 900, 300] := by
  norm_num [sinusoidalTracking, matchingPass, closestTrackSearch, createNewTracks,
    sort_indexes, sortPairs, insertPair, List.enum, List.enumFrom, setAll,
    copy_vector_from_indexes, erase_vector_from_indexes, List.range_succ, List.replicate]

/-- C3.  Evaluation of `sort_indexes` at magnitudes [1, 2]: the permutation
is [0, 1], listing the SMALLER magnitude (index 0, value 1) before the larger
(index 1, value 2).  The claim (and the source's own `np.argsort(-pmag)`
comment at line 184) requires descending order, i.e. [1, 0]: the comparator
at lines 46-47 sorts ascending. -/
theorem sort_indexes_smaller_first : sort_indexes [1, 2] = [0, 1] := by
  norm_num [sort_indexes, sortPairs, insertPair, List.enum, List.enumFrom]

/-- C4.  With sampleRate 200, a phase array of length fftSize = 4, and peak
frequency 100 = sampleRate/2 (inside the claimed range [0, sampleRate/2]),
the phase interpolator computes pos = 4, idx = 4, a = 0 and falls to the
final branch, reading `fftphase[4]` — one past the end, outside the claimed
range [0, fftSize-1] = [0, 3]. -/
theorem phaseInterpReads_nyquist :
    phaseInterpReads 200 [0, 0, 0, 0] 100 = [4]
    ∧ ((0:ℚ) ≤ 100 ∧ (100:ℚ) ≤ 200 / 2)
    ∧ ¬ ((4:ℤ) ≤ ([(0:ℚ), 0, 0, 0].length : ℤ) - 1) := by
  refine ⟨?_, by norm_num, by norm_num⟩
  have h : cIntCast (1 / 2 + (([(0:ℚ), 0, 0, 0].length : ℚ) * ((100:ℚ) / (200 / 2)))) = 4 :=
    cIntCast_of_nonneg _ _ (by norm_num) (by norm_num) (by norm_num)
  norm_num [phaseInterpReads] at h ⊢
  rw [h]
  norm_num

/-- C5.  With sampleRate 100, phase array [0, 4] and peak frequency 6.25
(pos = 0.25, idx = 0, a = 0.25, a fractional position strictly between bins
0 and 1), the phase difference |4 - 0| = 4 exceeds π, yet the interpolator
returns the linear interpolation 0.25·4 + 0.75·0 = 1 instead of the nearest
bin's raw phase 0: the ternary at line 372 interpolates exactly when the
difference exceeds π (its own comment at line 366 says interpolation is for
differences smaller than π). -/
theorem phaseInterpolation_wrap_interpolates :
    phaseInterpolation 100 [0, 4] [25 / 4] = [1]
    ∧ |([(0:ℚ), 4].getD 1 0) - ([(0:ℚ), 4].getD 0 0)| > mPI
    ∧ (1:ℚ) ≠ [(0:ℚ), 4].getD 0 0 := by
  refine ⟨?_, by norm_num [mPI], by norm_num⟩
  have h : cIntCast (1 / 2 + (([(0:ℚ), 4].length : ℚ) * ((25 / 4 : ℚ) / (100 / 2)))) = 0 :=
    cIntCast_of_nonneg _ _ (by norm_num) (by norm_num) (by norm_num)
  norm_num [phaseInterpolation, phaseInterpOne] at h ⊢
  rw [h]
  norm_num [mPI]

/-- C6.  Conservation: for any call of the track continuator, every frequency
in the output slot array is either the sentinel 0 or the frequency of one of
the supplied current-frame peaks; no other value appears. -/
theorem sinusoidalTracking_conservation (pm pf pp tf : List ℚ) (fdo fds : ℚ) (x : ℚ)
    (hx : x ∈ (sinusoidalTracking pm pf pp tf fdo fds).freq) : x = 0 ∨ x ∈ pf := by
  simp only [sinusoidalTracking] at hx
  rcases mem_createNewTracks_freq _ _ _ _ _ _ _ hx with h | h | h
  · rcases mem_setAll _ _ h with h2 | ⟨p, hp, rfl⟩
    · exact Or.inl (List.eq_of_mem_replicate h2)
    · have h3 : p.2 ∈ _ := (List.of_mem_zip hp).2
      rcases List.mem_map.1 h3 with ⟨q, _, h4⟩
      rw [← h4]
      exact getD_zero_or_mem pf q
  · exact Or.inl h
  · exact Or.inr (mem_erase_vector_from_indexes _ _ h)

/-- C6 witness: conservation instantiated at Scenario C, where 305 appears in
the output (as an appended slot) and is indeed one of the supplied peak
frequencies. -/
theorem sinusoidalTracking_conservation_witness :
    (305:ℚ) = 0 ∨ (305:ℚ) ∈ [(305:ℚ)] :=
  sinusoidalTracking_conservation [3] [305] [0] [300] 20 (1 / 100) 305 (by
    norm_num [sinusoidalTracking, matchingPass, closestTrackSearch, createNewTracks,
      sort_indexes, sortPairs, insertPair, List.enum, List.enumFrom, setAll,
      copy_vector_from_indexes, erase_vector_from_indexes, List.range_succ, List.replicate])

/-- C7.  Growth: for any call of the track continuator, each of the three
output slot arrays is at least as long as the input track-frequency array
(the arrays are resized to the input length and afterwards only appended
to). -/
theorem sinusoidalTracking_growth (pm pf pp tf : List ℚ) (fdo fds : ℚ) :
    tf.length ≤ (sinusoidalTracking pm pf pp tf fdo fds).freq.length
    ∧ tf.length ≤ (sinusoidalTracking pm pf pp tf fdo fds).mag.length
    ∧ tf.length ≤ (sinusoidalTracking pm pf pp tf fdo fds).phase.length := by
  simp only [sinusoidalTracking]
  refine ⟨le_trans ?_ (createNewTracks_length _ _ _ _ _ _ _).1,
          le_trans ?_ (createNewTracks_length _ _ _ _ _ _ _).2.1,
          le_trans ?_ (createNewTracks_length _ _ _ _ _ _ _).2.2⟩ <;>
    simp [length_setAll]

/-- C8.  Boundary behavior of the phase interpolator: a peak frequency
mapping exactly to bin 0 (frequency 0) returns `fftphase[0]` unmodified, and
a peak frequency mapping exactly to the last bin (fractional position
fftSize - 1, i.e. frequency (sampleRate/2)·(fftSize-1)/fftSize) returns
`fftphase[fftSize-1]` unmodified. -/
theorem phaseInterpolation_boundary (sr : ℚ) (ph : List ℚ) (hsr : 0 < sr)
    (hlen : 2 ≤ ph.length) :
    phaseInterpolation sr ph [0] = [ph.getD 0 0]
    ∧ phaseInterpolation sr ph [(sr / 2) * ((ph.length : ℚ) - 1) / ph.length]
      = [ph.getD (ph.length - 1) 0] := by
  have hL2 : (2:ℚ) ≤ ph.length := by exact_mod_cast hlen
  have hL0 : (ph.length : ℚ) ≠ 0 := by linarith
  have hsr0 : sr ≠ 0 := ne_of_gt hsr
  constructor
  · have hpos1 : (ph.length : ℚ) * ((0:ℚ) / (sr / 2)) = 0 := by simp
    have hidx1 : cIntCast ((1:ℚ) / 2 + 0) = 0 :=
      cIntCast_of_nonneg _ _ (by norm_num) (by norm_num) (by norm_num)
    simp only [phaseInterpolation, List.map, phaseInterpOne, hpos1, hidx1]
    rw [if_neg (by norm_num), if_pos (by omega : (0:ℤ) < (ph.length:ℤ) - 1)]
    split_ifs with h
    · norm_num
    · rfl
  · have hpos2 : (ph.length : ℚ) * (((sr / 2) * ((ph.length : ℚ) - 1) / ph.length) / (sr / 2))
        = (ph.length : ℚ) - 1 := by
      field_simp
      ring
    have hidx2 : cIntCast ((1:ℚ) / 2 + ((ph.length : ℚ) - 1)) = (ph.length : ℤ) - 1 := by
      refine cIntCast_of_nonneg _ _ (by linarith) ?_ ?_
      · push_cast
        linarith
      · push_cast
        linarith
    simp only [phaseInterpolation, List.map, phaseInterpOne, hpos2, hidx2]
    have ha : ((ph.length : ℚ) - 1 - (((ph.length : ℤ) - 1 : ℤ) : ℚ)) = 0 := by
      push_cast
      ring
    rw [if_neg (by rw [ha]; norm_num),
      if_neg (by omega : ¬ ((ph.length:ℤ) - 1 < (ph.length:ℤ) - 1))]
    have ht : ((ph.length : ℤ) - 1).toNat = ph.length - 1 := by omega
    rw [ht]

/-- C8 witness: the boundary theorem at sampleRate 100 and phase array
[1, 2]: frequency 0 yields phase 1 (bin 0) and frequency 25 (fractional
position 1 = fftSize - 1) yields phase 2 (last bin). -/
theorem phaseInterpolation_boundary_witness :
    phaseInterpolation 100 [(1:ℚ), 2] [0] = [[(1:ℚ), 2].getD 0 0]
    ∧ phaseInterpolation 100 [(1:ℚ), 2]
        [(100 / 2) * (([(1:ℚ), 2].length : ℚ) - 1) / [(1:ℚ), 2].length]
      = [[(1:ℚ), 2].getD ([(1:ℚ), 2].length - 1) 0] :=
  phaseInterpolation_boundary 100 [1, 2] (by norm_num) (by norm_num)

/-- C9 counterexample: the claim says the error message contains the
offending `orderBy` value.  For `orderBy = "XYZ"` the raised message is
"Unsupported ordering type: 'xyz'" (the parameter is lowercased first), which
does not contain "XYZ". -/
theorem configure_message_counterexample :
    SineModelAnalConfigure ⟨44100, 100, 0, 5000, 0, "XYZ"⟩
      = .error "Unsupported ordering type: 'xyz'"
    ∧ containsSub "XYZ".data "Unsupported ordering type: 'xyz'".data = false := by
  constructor
  · rfl
  · decide

/-- C9 (amended).  `configure` raises an error if and only if the lowercased
`orderBy` parameter is neither "magnitude" nor "frequency"; the error message
contains the LOWERCASED offending value; on error no collaborator
configuration is committed (the error carries no `PeakDetectionConfig`); and
on success "magnitude" maps to the Peak Picker's "amplitude"
(descending-amplitude) order and "frequency" to its "position"
(ascending-position) order, with the remaining collaborator parameters
committed as at lines 111-117. -/
theorem configure_orderBy_amended (p : SineModelAnalParams) :
    (∀ msg, SineModelAnalConfigure p = .error msg ↔
      (lowercase p.orderBy ≠ "magnitude" ∧ lowercase p.orderBy ≠ "frequency"
        ∧ msg = "Unsupported ordering type: '" ++ lowercase p.orderBy ++ "'"))
    ∧ (lowercase p.orderBy = "magnitude" → SineModelAnalConfigure p =
        .ok ⟨true, p.sampleRate / 2, p.maxPeaks, p.minFrequency, p.maxFrequency,
             p.magnitudeThreshold, "amplitude"⟩)
    ∧ (lowercase p.orderBy = "frequency" → SineModelAnalConfigure p =
        .ok ⟨true, p.sampleRate / 2, p.maxPeaks, p.minFrequency, p.maxFrequency,
             p.magnitudeThreshold, "position"⟩)
    ∧ (∀ msg, SineModelAnalConfigure p = .error msg →
        containsSub (lowercase p.orderBy).data msg.data = true) := by
  refine ⟨?_, ?_, ?_, ?_⟩
  · intro msg
    rw [SineModelAnalConfigure]
    split_ifs with h1 h2
    · simp [h1]
    · simp [h1, h2]
    · simp [h1, h2, eq_comm]
  · intro h
    rw [SineModelAnalConfigure]
    simp [h]
  · intro h
    rw [SineModelAnalConfigure]
    have : lowercase p.orderBy ≠ "magnitude" := by rw [h]; decide
    simp [h, this]
  · intro msg hmsg
    rw [SineModelAnalConfigure] at hmsg
    split_ifs at hmsg with h1 h2
    have hm : "Unsupported ordering type: '" ++ lowercase p.orderBy ++ "'" = msg :=
      Except.error.inj hmsg
    rw [← hm]
    have hd : ("Unsupported ordering type: '" ++ lowercase p.orderBy ++ "'").data
        = "Unsupported ordering type: '".data ++ ((lowercase p.orderBy).data ++ "'".data) := by
      rw [string_append_data, string_append_data, List.append_assoc]
    rw [hd]
    exact containsSub_of_parts _ _ _

/-- C9 witness: the amended theorem instantiated at `orderBy = "Magnitude"`
(exercising case-insensitivity): configuration succeeds and commits the
"amplitude" ordering to the Peak Picker. -/
theorem configure_orderBy_amended_witness :
    SineModelAnalConfigure ⟨44100, 100, 0, 5000, 0, "Magnitude"⟩
      = .ok ⟨true, 44100 / 2, 100, 0, 5000, 0, "amplitude"⟩ :=
  (configure_orderBy_amended ⟨44100, 100, 0, 5000, 0, "Magnitude"⟩).2.1 (by decide)

/-- C10.  The track continuator's output is identical for any two values of
the `freqDevOffset` and `freqDevSlope` arguments: lines 157-158 overwrite
both with the constants 20 and 0.01 before any use, so the result does not
depend on them. -/
theorem sinusoidalTracking_freqDev_independent (pm pf pp tf : List ℚ)
    (fdo₁ fds₁ fdo₂ fds₂ : ℚ) :
    sinusoidalTracking pm pf pp tf fdo₁ fds₁ = sinusoidalTracking pm pf pp tf fdo₂ fds₂ := rfl
